import Mathlib

/-!
Verification development for the crontab-ui core: the security validator
(`validateCommandSecurity`, `validateCronSchedule`, the name check inside
`createCrontab`), the compiler (`make_command`, the full schedule text of
`set_crontab`), the publish protocol of `set_crontab`, the store mutations
(`create_new`, `update`, `status`), the `DatabaseManager` cache policy and
`get_env`.  JavaScript strings are modelled as Lean `String`, machine-level
regular expressions as a small executable matcher, `undefined`/non-string
inputs as `Option String`, and JavaScript's loosely typed field values as an
explicit `JSVal` type.
-/

namespace CrontabUI

/-! ## JavaScript character and string primitives -/

/-- The character class `\w` of JavaScript regular expressions: ASCII letters,
digits and underscore. -/
def isWordChar (c : Char) : Bool :=
  c.isAlpha || c.isDigit || c == '_'

/-- The character class `\s` of JavaScript regular expressions (the ECMAScript
WhiteSpace and LineTerminator sets, enumerated). -/
def isJsSpace (c : Char) : Bool :=
  c == ' ' || c == '\t' || c == '\n' || c == '\r' || c == '\x0b' || c == '\x0c' ||
  c == '\u00a0' || c == '\u1680' || c == '\u2000' || c == '\u2001' || c == '\u2002' ||
  c == '\u2003' || c == '\u2004' || c == '\u2005' || c == '\u2006' || c == '\u2007' ||
  c == '\u2008' || c == '\u2009' || c == '\u200a' || c == '\u2028' || c == '\u2029' ||
  c == '\u202f' || c == '\u205f' || c == '\u3000' || c == '\ufeff'

/-- The `.` of JavaScript regular expressions: any character except a line
terminator. -/
def jsDot (c : Char) : Bool :=
  !(c == '\n' || c == '\r' || c == '\u2028' || c == '\u2029')

/-- `pat` is a prefix of the second list. -/
def listPrefixAt : List Char → List Char → Bool
  | [], _ => true
  | _ :: _, [] => false
  | p :: ps, c :: cs => p == c && listPrefixAt ps cs

/-- `pat` occurs as a contiguous sublist (JavaScript `String.includes`). -/
def listContains (pat : List Char) : List Char → Bool
  | [] => listPrefixAt pat []
  | c :: cs => listPrefixAt pat (c :: cs) || listContains pat (cs)

/-- JavaScript `String.prototype.trim`: strip `\s` characters from both ends. -/
def jsTrim (s : String) : String :=
  ⟨((s.data.dropWhile isJsSpace).reverse.dropWhile isJsSpace).reverse⟩

/-- Split into maximal runs of non-whitespace characters (the fields obtained
by tokenizing on whitespace, empty fields dropped). -/
def wsTokensAux (acc : List Char) : List Char → List (List Char)
  | [] => if acc.isEmpty then [] else [acc.reverse]
  | c :: rest =>
    if isJsSpace c then
      if acc.isEmpty then wsTokensAux [] rest else acc.reverse :: wsTokensAux [] rest
    else wsTokensAux (c :: acc) rest

/-- Whitespace tokenization of a string. -/
def wsTokens (s : String) : List String :=
  (wsTokensAux [] s.data).map (fun l => (⟨l⟩ : String))

/-! ## A small executable regular-expression matcher

Just enough of ECMAScript regular expressions to transliterate the fixed
deny-list of `validateCommandSecurity`: literal characters, character classes,
sequencing, alternation, Kleene star over a character class (the sources only
ever apply `*`/`+` to single-character atoms such as `.`, `\s`), and the
zero-width word-boundary assertion `\b`.  A match state is the pair of the
previously consumed character (for `\b`) and the remaining input. -/

inductive RE where
  | eps : RE
  | cls (f : Char → Bool) : RE
  | seq (a b : RE) : RE
  | alt (a b : RE) : RE
  | starCls (f : Char → Bool) : RE
  | wb : RE

/-- All ways for `(cls f)*` to consume a prefix of the input. -/
def starSplits (f : Char → Bool) : Option Char → List Char → List (Option Char × List Char)
  | p, [] => [(p, [])]
  | p, c :: rest =>
    (p, c :: rest) :: (if f c then starSplits f (some c) rest else [])

/-- All match states reachable by matching `r` at the current position. -/
def rmatch : RE → Option Char → List Char → List (Option Char × List Char)
  | .eps, p, s => [(p, s)]
  | .cls _, _, [] => []
  | .cls f, _, c :: rest => if f c then [(some c, rest)] else []
  | .seq a b, p, s => (rmatch a p s).flatMap (fun pr => rmatch b pr.1 pr.2)
  | .alt a b, p, s => rmatch a p s ++ rmatch b p s
  | .starCls f, p, s => starSplits f p s
  | .wb, p, s =>
    let pw := match p with | some c => isWordChar c | none => false
    let nw := match s with | c :: _ => isWordChar c | [] => false
    if pw == nw then [] else [(p, s)]

/-- Does `r` match starting at some position of the input (JavaScript
`RegExp.test`, which is unanchored)? -/
def testAux (r : RE) : Option Char → List Char → Bool
  | p, [] => !(rmatch r p []).isEmpty
  | p, c :: rest => !(rmatch r p (c :: rest)).isEmpty || testAux r (some c) rest

/-- `RegExp.test` on a string. -/
def reTest (r : RE) (s : String) : Bool :=
  testAux r none s.data

/-- A single literal character. -/
def chrRE (c : Char) : RE := .cls (fun x => x == c)

/-- A literal string. -/
def litRE (s : String) : RE :=
  s.data.foldr (fun c r => .seq (chrRE c) r) .eps

/-- A case-insensitive literal string (for a regex with the `i` flag). -/
def litCIRE (s : String) : RE :=
  s.data.foldr (fun c r => .seq (.cls (fun x => x.toLower == c.toLower)) r) .eps

/-- Sequence of regexes. -/
def seqsRE (l : List RE) : RE := l.foldr .seq .eps

/-- Alternation over a non-empty list (a trailing never-matching branch is
harmless). -/
def altsRE (l : List RE) : RE := l.foldr .alt (.cls (fun _ => false))

/-- `\s+` -/
def ws1RE : RE := .seq (.cls isJsSpace) (.starCls isJsSpace)

/-- `\s*` -/
def ws0RE : RE := .starCls isJsSpace

/-- `.*` -/
def dotStarRE : RE := .starCls jsDot

/-- `r?` -/
def optRE (r : RE) : RE := .alt r .eps

/-! ## The fixed deny-list of `validateCommandSecurity` (src/crontab.js)

Each definition transliterates one regular expression of the
`dangerousPatterns` array, in source order. -/

/-- `\brm\s+(-rf\s+)?\//` — rm with root paths -/
def patRmRoot : RE :=
  seqsRE [.wb, litRE "rm", ws1RE, optRE (seqsRE [litRE "-rf", ws1RE]), chrRE '/']

/-- `\bmv\s+.*\s+\//` — mv to root -/
def patMvRoot : RE :=
  seqsRE [.wb, litRE "mv", ws1RE, dotStarRE, ws1RE, chrRE '/']

/-- `\bcp\s+.*\s+\//` — cp to root -/
def patCpRoot : RE :=
  seqsRE [.wb, litRE "cp", ws1RE, dotStarRE, ws1RE, chrRE '/']

/-- `\bchmod\s+(777|666)/` — dangerous permissions -/
def patChmod : RE :=
  seqsRE [.wb, litRE "chmod", ws1RE, .alt (litRE "777") (litRE "666")]

/-- `\bchown\s+root/` — changing to root ownership -/
def patChown : RE :=
  seqsRE [.wb, litRE "chown", ws1RE, litRE "root"]

/-- `\bsu\s+/` — switch user -/
def patSu : RE := seqsRE [.wb, litRE "su", ws1RE]

/-- `\bsudo\s+/` — sudo commands -/
def patSudo : RE := seqsRE [.wb, litRE "sudo", ws1RE]

/-- `\b(wget|curl).*\|\s*(sh|bash|zsh|fish)/` — download and execute -/
def patDownloadExec : RE :=
  seqsRE [.wb, .alt (litRE "wget") (litRE "curl"), dotStarRE, chrRE '|', ws0RE,
    altsRE [litRE "sh", litRE "bash", litRE "zsh", litRE "fish"]]

/-- `\b(nc|netcat|ncat).*(-e|-c)/` — reverse shells -/
def patReverseShell : RE :=
  seqsRE [.wb, altsRE [litRE "nc", litRE "netcat", litRE "ncat"], dotStarRE,
    .alt (litRE "-e") (litRE "-c")]

/-- `\beval\s*\(/` — eval execution -/
def patEval : RE := seqsRE [.wb, litRE "eval", ws0RE, chrRE '(']

/-- `\bexec\s*\(/` — exec execution -/
def patExec : RE := seqsRE [.wb, litRE "exec", ws0RE, chrRE '(']

/-- `>\s*.*\/(etc|bin|sbin|usr\/bin|usr\/sbin)/` — redirect to system dirs -/
def patRedirectSys : RE :=
  seqsRE [chrRE '>', ws0RE, dotStarRE, chrRE '/',
    altsRE [litRE "etc", litRE "bin", litRE "sbin", litRE "usr/bin", litRE "usr/sbin"]]

/-- `\;\s*(rm|mv|cp|chmod|chown)\s+/` — chained dangerous commands -/
def patChained : RE :=
  seqsRE [chrRE ';', ws0RE,
    altsRE [litRE "rm", litRE "mv", litRE "cp", litRE "chmod", litRE "chown"], ws1RE]

/-- `\|\s*(rm|mv|cp|chmod|chown)\s+/` — piped dangerous commands -/
def patPiped : RE :=
  seqsRE [chrRE '|', ws0RE,
    altsRE [litRE "rm", litRE "mv", litRE "cp", litRE "chmod", litRE "chown"], ws1RE]

/-- `\&\&\s*(rm|mv|cp|chmod|chown)\s+/` — conditional dangerous commands -/
def patConditional : RE :=
  seqsRE [litRE "&&", ws0RE,
    altsRE [litRE "rm", litRE "mv", litRE "cp", litRE "chmod", litRE "chown"], ws1RE]

/-- `\b(format|mkfs|fdisk|dd.*of=\/dev|halt|poweroff|reboot|shutdown)\b/i` —
destructive commands (case-insensitive) -/
def patDestructive : RE :=
  seqsRE [.wb,
    altsRE [litCIRE "format", litCIRE "mkfs", litCIRE "fdisk",
      seqsRE [litCIRE "dd", dotStarRE, litCIRE "of=/dev"],
      litCIRE "halt", litCIRE "poweroff", litCIRE "reboot", litCIRE "shutdown"],
    .wb]

/-- `\b(python|python3|node|php|ruby|perl)\s+.*-c\s+/` — script execution -/
def patScriptExec : RE :=
  seqsRE [.wb,
    altsRE [litRE "python", litRE "python3", litRE "node", litRE "php",
      litRE "ruby", litRE "perl"],
    ws1RE, dotStarRE, litRE "-c", ws1RE]

/-- `\b(bash|sh|zsh|fish)\s+.*-c\s+/` — shell execution -/
def patShellExec : RE :=
  seqsRE [.wb, altsRE [litRE "bash", litRE "sh", litRE "zsh", litRE "fish"],
    ws1RE, dotStarRE, litRE "-c", ws1RE]

/-- `\$(.*)\s*\|\s*(sh|bash|zsh)/` — variable expansion to shell -/
def patVarToShell : RE :=
  seqsRE [chrRE '$', dotStarRE, ws0RE, chrRE '|', ws0RE,
    altsRE [litRE "sh", litRE "bash", litRE "zsh"]]

/-- `\bkill\s+(-9\s+)?1\b/` — kill init process -/
def patKillInit : RE :=
  seqsRE [.wb, litRE "kill", ws1RE, optRE (seqsRE [litRE "-9", ws1RE]), chrRE '1', .wb]

/-- `\b(docker|kubectl|systemctl)\s+(run|exec|start|stop|restart)/` —
container/service management -/
def patContainerMgmt : RE :=
  seqsRE [.wb, altsRE [litRE "docker", litRE "kubectl", litRE "systemctl"], ws1RE,
    altsRE [litRE "run", litRE "exec", litRE "start", litRE "stop", litRE "restart"]]

/-- The `dangerousPatterns` array, in source order. -/
def dangerousPatterns : List RE :=
  [patRmRoot, patMvRoot, patCpRoot, patChmod, patChown, patSu, patSudo,
   patDownloadExec, patReverseShell, patEval, patExec, patRedirectSys,
   patChained, patPiped, patConditional, patDestructive, patScriptExec,
   patShellExec, patVarToShell, patKillInit, patContainerMgmt]

/-- Does some deny-list pattern match anywhere in the command? -/
def matchesDangerous (s : String) : Bool :=
  dangerousPatterns.any (fun p => reTest p s)

/-- `command.includes('<script>') || command.includes('javascript:')` -/
def containsXss (s : String) : Bool :=
  listContains "<script>".data s.data || listContains "javascript:".data s.data

/-- `validateCommandSecurity` from src/crontab.js.  A non-string argument is
modelled as `none`; note that `!command` also rejects the empty string. -/
def validateCommandSecurity (c : Option String) : Bool :=
  match c with
  | none => false
  | some s =>
    if s = "" then false
    else if matchesDangerous s = true then false
    else if containsXss s = true then false
    else if 2000 < s.length then false
    else true

/-- Claim-side definition, following the specification's words: the
command-safety check rejects iff the input is not a string, exceeds 2000
characters, contains an HTML script tag or a `javascript:` marker, or matches
one of the dangerous-intent patterns. -/
def commandRejectOriginal (c : Option String) : Bool :=
  match c with
  | none => true
  | some s =>
    decide (2000 < s.length) || containsXss s || matchesDangerous s

/-- Claim-side definition amended by the counterexample: the same rejection
conditions plus rejection of the empty string (`!command` is true for `""`). -/
def commandRejectAmended (c : Option String) : Bool :=
  match c with
  | none => true
  | some s =>
    decide (s = "") || decide (2000 < s.length) || containsXss s || matchesDangerous s

/-- Claim C3 (counterexample): the empty string triggers none of the rejection
conditions listed by the claim, yet `validateCommandSecurity` rejects it
(JavaScript `!command` is true for the empty string). -/
theorem empty_command_rejected_but_unlisted :
    validateCommandSecurity (some "") = false ∧
      commandRejectOriginal (some "") = false := by
  constructor
  · decide
  · decide

/-- Claim C3 (amended): for every input, `validateCommandSecurity` accepts
exactly when none of the amended rejection conditions holds — the input is a
string, is non-empty, is at most 2000 characters, contains neither an HTML
script tag nor a `javascript:` marker, and matches none of the fixed
dangerous-intent patterns. -/
theorem validateCommandSecurity_iff_conditions (c : Option String) :
    validateCommandSecurity c = !(commandRejectAmended c) := by
  cases c with
  | none => rfl
  | some s =>
    unfold validateCommandSecurity commandRejectAmended
    by_cases h1 : s = "" <;>
      by_cases h2 : matchesDangerous s = true <;>
        by_cases h3 : containsXss s = true <;>
          by_cases h4 : 2000 < s.length <;>
            simp [h1, h2, h3, h4]

/-! ## Schedule validation (`validateCronSchedule`, src/crontab.js)

The source delegates acceptance to the external `cron-parser` library after
trimming; the library itself is not part of this repository, so it is
modelled from the specification's description of the schedule grammar. -/

/-- The named schedule macros of the specification's fixed set. -/
def cronMacros : List String :=
  ["@reboot", "@yearly", "@annually", "@monthly", "@weekly", "@daily",
   "@midnight", "@hourly"]

/-- Membership in the fixed macro set. -/
def isCronMacro (s : String) : Bool :=
  cronMacros.any (fun m => m == s)

/-- The values `lo ≤ v ≤ hi` reachable from `lo` with step `k`. -/
def expandRange (lo hi k : Nat) : List Nat :=
  ((List.range (hi + 1 - lo)).filter (fun i => i % k == 0)).map (fun i => lo + i)

/-- Split a character list on a separator character (JavaScript
`String.split` with a one-character separator: empty pieces are kept). -/
def splitOnCharAux (sep : Char) (acc : List Char) : List Char → List (List Char)
  | [] => [acc.reverse]
  | c :: rest =>
    if c == sep then acc.reverse :: splitOnCharAux sep [] rest
    else splitOnCharAux sep (c :: acc) rest

/-- Split on a separator character. -/
def splitOnChar (sep : Char) (l : List Char) : List (List Char) :=
  splitOnCharAux sep [] l

/-- Parse a non-empty all-digit character list as a number. -/
def digitsToNat? (l : List Char) : Option Nat :=
  if l.isEmpty then none
  else if l.all (fun c => c.isDigit) then
    some (l.foldl (fun n c => n * 10 + (c.toNat - 48)) 0)
  else none

/-- One `base` part of a field atom: `*`, a number, or a range `n-m`,
expanded to its value set under step `k` and position bounds. -/
def parseBase (lo hi : Nat) (b : List Char) (k : Nat) : Option (List Nat) :=
  if b == "*".data then some (expandRange lo hi k)
  else
    match splitOnChar '-' b with
    | [n] =>
      match digitsToNat? n with
      | some v =>
        if lo ≤ v ∧ v ≤ hi then some (if k == 1 then [v] else expandRange v hi k)
        else none
      | none => none
    | [n, m] =>
      match digitsToNat? n, digitsToNat? m with
      | some v, some w =>
        if lo ≤ v ∧ v ≤ w ∧ w ≤ hi then some (expandRange v w k) else none
      | _, _ => none
    | _ => none

/-- One comma-separated atom of a field, with an optional `/step` suffix. -/
def parseAtom (lo hi : Nat) (a : List Char) : Option (List Nat) :=
  match splitOnChar '/' a with
  | [b] => parseBase lo hi b 1
  | [b, st] =>
    match digitsToNat? st with
    | some k => if k == 0 then none else parseBase lo hi b k
    | none => none
  | _ => none

/-- A whole field: a comma-separated list of atoms; fails if any atom is
outside the numeric/range/step/wildcard grammar for the position. -/
def parseField (lo hi : Nat) (tok : String) : Option (List Nat) :=
  (splitOnChar ',' tok.data).foldr
    (fun a acc =>
      match parseAtom lo hi a, acc with
      | some vs, some rest => some (vs ++ rest)
      | _, _ => none)
    (some [])

/-- Days per month (29 for February, since leap years recur). -/
def daysInMonth (m : Nat) : Nat :=
  if m == 2 then 29
  else if m == 4 || m == 6 || m == 9 || m == 11 then 30
  else if 1 ≤ m ∧ m ≤ 12 then 31
  else 0

/-- A cron field is restricted when it does not start with `*`. -/
def fieldRestricted (tok : String) : Bool :=
  match tok.data with
  | c :: _ => !(c == '*')
  | [] => true

/-- Does the expression yield at least one future occurrence?  With cron's
day semantics, only a restricted day-of-month combined with an unrestricted
day-of-week can make every date impossible (for example February 30). -/
def hasFutureOccurrence (dmTok dwTok : String) (domVals monVals : List Nat) : Bool :=
  if fieldRestricted dmTok && !(fieldRestricted dwTok) then
    monVals.any (fun m => domVals.any (fun d => d ≤ daysInMonth m))
  else true

/-- The five time fields minute, hour, day-of-month, month, day-of-week, each
matching its positional grammar, with at least one future occurrence. -/
def cronFieldsCheck (mi hr dm mo dw : String) : Bool :=
  match parseField 0 59 mi, parseField 0 23 hr, parseField 1 31 dm,
      parseField 1 12 mo, parseField 0 7 dw with
  | some _, some _, some dmv, some mov, some _ =>
    hasFutureOccurrence dm dw dmv mov
  | _, _, _, _, _ => false

/-- Tokenizes into exactly 5 or 6 whitespace-separated fields, each matching
the grammar for its position (a 6th leading field is seconds), with at least
one future occurrence. -/
def cronFieldsOk (s : String) : Bool :=
  match wsTokens s with
  | [mi, hr, dm, mo, dw] => cronFieldsCheck mi hr dm mo dw
  | [sec, mi, hr, dm, mo, dw] =>
    (parseField 0 59 sec).isSome && cronFieldsCheck mi hr dm mo dw
  | _ => false

/-- Modelled from the spec: `cronParser.parseExpression` comes from the
external `cron-parser` npm package, whose source is not part of this
repository; per the specification's schedule-check description it succeeds
exactly on a named macro of the fixed set or on a 5/6-field expression whose
fields match the numeric/range/step/wildcard grammar for their position and
which yields at least one future occurrence. -/
def parseExpressionOk (s : String) : Bool :=
  isCronMacro s || cronFieldsOk s

/-- `validateCronSchedule` from src/crontab.js: reject non-strings and the
empty string, trim, then delegate to `cronParser.parseExpression`. -/
def validateCronSchedule (c : Option String) : Bool :=
  match c with
  | none => false
  | some s =>
    if s = "" then false
    else parseExpressionOk (jsTrim s)

/-- Claim-side definition following the specification's words: the schedule
check accepts iff the string itself is a named macro, or it tokenizes into
exactly 5 or 6 grammar-conforming fields with a future occurrence. -/
def scheduleAcceptSpec (s : String) : Bool :=
  isCronMacro s || cronFieldsOk s

/-- Claim C5 (counterexample): `"@hourly "` (trailing blank) is neither
literally a macro of the set nor a 5/6-field expression, so the claim as
stated rejects it, but `validateCronSchedule` trims the input first and
accepts it.  (The last conjunct exercises the 5-field grammar.) -/
theorem schedule_with_trailing_space_accepted :
    validateCronSchedule (some "@hourly ") = true ∧
      scheduleAcceptSpec "@hourly " = false ∧
      validateCronSchedule (some "0 2 * * *") = true := by
  refine ⟨by decide, by decide, by decide⟩

/-- Claim C5 (amended): the schedule check first trims surrounding
whitespace; it accepts exactly when the trimmed string is a named macro or a
valid 5/6-field expression with a future occurrence. -/
theorem validateCronSchedule_eq_spec_after_trim (s : String) :
    validateCronSchedule (some s) = scheduleAcceptSpec (jsTrim s) := by
  unfold validateCronSchedule
  by_cases h : s = ""
  · subst h
    decide
  · simp [h, parseExpressionOk, scheduleAcceptSpec]

/-! ## Name validation and job creation (`createCrontab`, src/crontab.js) -/

/-- An ASCII letter or digit (`validator.isAlphanumeric` with the default
`en-US` locale). -/
def isAlnumChar (c : Char) : Bool :=
  c.isAlpha || c.isDigit

/-- `validator.isAlphanumeric` on a character list: non-empty and all
alphanumeric. -/
def isAlphanumericList (l : List Char) : Bool :=
  !l.isEmpty && l.all isAlnumChar

/-- `validator.isAlphanumeric` on a string. -/
def validatorIsAlphanumeric (s : String) : Bool :=
  isAlphanumericList s.data

/-- The characters removed by `name.replace(/[-_\s]/g, '')`. -/
def nameStripChar (c : Char) : Bool :=
  c == '-' || c == '_' || isJsSpace c

/-- `name.replace(/[-_\s]/g, '')`: drop hyphens, underscores and whitespace. -/
def stripNameChars (s : String) : String :=
  ⟨s.data.filter (fun c => !nameStripChar c)⟩

/-- One character of `validator.escape`'s output. -/
def escapeHtmlChar (c : Char) : List Char :=
  if c == (Char.ofNat 38) then "&amp;".data
  else if c == (Char.ofNat 34) then "&quot;".data
  else if c == (Char.ofNat 39) then "&#x27;".data
  else if c == '<' then "&lt;".data
  else if c == '>' then "&gt;".data
  else if c == '/' then "&#x2F;".data
  else if c == (Char.ofNat 92) then "&#x5C;".data
  else if c == (Char.ofNat 96) then "&#96;".data
  else [c]

/-- `validator.escape`: HTML-entity escape of a string. -/
def escapeHtml (s : String) : String :=
  ⟨s.data.flatMap escapeHtmlChar⟩

/-- A loosely typed JavaScript field value, as far as the sources need:
booleans, strings or null. -/
inductive JSVal where
  | vBool (b : Bool)
  | vStr (s : String)
  | vNull

/-- JavaScript truthiness of a `JSVal`. -/
def truthy : JSVal → Bool
  | .vBool b => b
  | .vStr s => !(s == "")
  | .vNull => false

/-- JavaScript loose equality `v == "true"`: a string compares by content,
while a boolean is converted to a number (0 or 1) and `"true"` to `NaN`, so
the comparison is false for both booleans. -/
def looseEqTrueStr : JSVal → Bool
  | .vBool _ => false
  | .vStr s => s == "true"
  | .vNull => false

/-- A job record as stored in the database (`data` object of
`createCrontab`); the `_id` assigned by the store is kept separately as the
key of the store's association list. -/
structure TabData where
  name : String
  command : String
  schedule : String
  stopped : Bool
  timestamp : String
  logging : JSVal
  mailing : List (String × String)
  hook : Option String
  created : Nat
  lastModified : Nat
  version : String
  saved : Bool

/-- `createCrontab` from src/crontab.js: validate name, command and schedule,
then build the sanitized record.  `stoppedArg = none` models the `null`
passed by `update` (`Boolean(null)` is `false`); `now`/`nowIso` stand for
`Date.now()` and `new Date().toISOString()`. -/
def createCrontab (name command schedule : String) (stoppedArg : Option Bool)
    (logging : Bool) (mailing : List (String × String)) (now : Nat)
    (nowIso : String) : Except String TabData :=
  if name ≠ "" ∧ (100 < name.length ∨ name.length < 1) then
    .error "Invalid job name: must be 1-100 characters"
  else if name ≠ "" ∧ validatorIsAlphanumeric (stripNameChars name) = false then
    .error "Job name contains invalid characters"
  else if validateCommandSecurity (some command) = false then
    .error "Command contains potentially dangerous operations"
  else if validateCronSchedule (some schedule) = false then
    .error "Invalid cron schedule format"
  else
    .ok {
      name := escapeHtml name
      command := jsTrim command
      schedule := jsTrim schedule
      stopped := stoppedArg.getD false
      timestamp := nowIso
      logging := .vBool logging
      mailing := mailing
      hook := none
      created := now
      lastModified := now
      version := "2.0"
      saved := false }

/-- Did a job-creation attempt pass validation? -/
def acceptsJob (e : Except String TabData) : Bool :=
  match e with
  | .ok _ => true
  | .error _ => false

/-- A hyphen, underscore or whitespace character is not alphanumeric. -/
theorem nameStripChar_not_alnum (c : Char) (h : nameStripChar c = true) :
    isAlnumChar c = false := by
  unfold nameStripChar isJsSpace at h
  simp only [Bool.or_eq_true, beq_iff_eq] at h
  repeat' rcases h with h | h
  all_goals decide

/-- All kept characters are alphanumeric iff every character is alphanumeric
or stripped. -/
theorem filter_all_alnum (l : List Char) :
    (l.filter (fun c => !nameStripChar c)).all isAlnumChar
      = l.all (fun c => isAlnumChar c || nameStripChar c) := by
  induction l with
  | nil => rfl
  | cons c t ih =>
    by_cases h : nameStripChar c = true
    · simp [List.filter_cons, h, ih, -List.all_filter, -List.any_filter]
    · have h' : nameStripChar c = false := by simpa using h
      simp [List.filter_cons, h', ih, -List.all_filter, -List.any_filter]

/-- The stripped name is non-empty and alphanumeric iff every character of
the name is alphanumeric-or-stripped and at least one is alphanumeric. -/
theorem isAlphanumericList_filter (l : List Char) :
    isAlphanumericList (l.filter (fun c => !nameStripChar c))
      = (l.all (fun c => isAlnumChar c || nameStripChar c) && l.any isAlnumChar) := by
  induction l with
  | nil => rfl
  | cons c t ih =>
    by_cases h : nameStripChar c = true
    · have ha : isAlnumChar c = false := nameStripChar_not_alnum c h
      simp [List.filter_cons, h, ha, ih, -List.all_filter, -List.any_filter]
    · have h' : nameStripChar c = false := by simpa using h
      by_cases ha : isAlnumChar c = true
      · simp [List.filter_cons, h', ha, isAlphanumericList, filter_all_alnum,
          -List.all_filter, -List.any_filter]
      · have ha' : isAlnumChar c = false := by simpa using ha
        simp [List.filter_cons, h', ha', isAlphanumericList,
          -List.all_filter, -List.any_filter]

/-- Claim-side definition following the specification's words: the name check
accepts iff the string is empty, or is 1–100 characters each of which is a
letter, digit, underscore, hyphen, whitespace or dot
(`nameStripChar` is exactly "hyphen, underscore or whitespace"). -/
def nameAcceptOriginal (s : String) : Bool :=
  decide (s = "") ||
    (decide (1 ≤ s.length) && decide (s.length ≤ 100) &&
      s.data.all (fun c => (isAlnumChar c || nameStripChar c) || c == '.'))

/-- Claim-side definition amended by the counterexample: the name check
accepts iff the string is empty, or is at most 100 characters, every
character is a letter, digit, underscore, hyphen or whitespace (dots are no
longer allowed), and at least one character is a letter or digit. -/
def nameAcceptAmended (s : String) : Bool :=
  decide (s = "") ||
    (decide (s.length ≤ 100) &&
      (s.data.all (fun c => isAlnumChar c || nameStripChar c) &&
        s.data.any isAlnumChar))

/-- Claim C6 (counterexample): `"a.b"` is a 3-character name made only of
letters and a dot, so the claim as stated accepts it, but `createCrontab`
rejects it: the name check strips only `[-_\s]` and then requires the rest to
be alphanumeric, so a dot fails `validator.isAlphanumeric`. -/
theorem dotted_name_rejected :
    acceptsJob (createCrontab "a.b" "ls" "@daily" none false [] 0 "") = false ∧
      nameAcceptOriginal "a.b" = true := by
  constructor
  · decide
  · decide

/-- Claim C6 (amended): with a fixed valid command and schedule,
`createCrontab` accepts a name exactly when it is empty, or is at most 100
characters consisting only of letters, digits, underscores, hyphens and
whitespace with at least one letter or digit. -/
theorem name_check_eq_amended (name : String) :
    acceptsJob (createCrontab name "ls" "@daily" none false [] 0 "")
      = nameAcceptAmended name := by
  have hcmd : validateCommandSecurity (some "ls") = true := by decide
  have hsch : validateCronSchedule (some "@daily") = true := by decide
  by_cases h0 : name = ""
  · subst h0
    decide
  · have hlen : 1 ≤ name.length := by
      cases name with
      | mk l =>
        cases l with
        | nil => exact absurd rfl h0
        | cons c t => simp [String.length]
    unfold createCrontab
    have hstrip : validatorIsAlphanumeric (stripNameChars name)
        = (name.data.all (fun c => isAlnumChar c || nameStripChar c) &&
            name.data.any isAlnumChar) :=
      isAlphanumericList_filter name.data
    by_cases h1 : 100 < name.length
    · have hc : name ≠ "" ∧ (100 < name.length ∨ name.length < 1) :=
        ⟨h0, Or.inl h1⟩
      rw [if_pos hc]
      unfold acceptsJob nameAcceptAmended
      have h1' : ¬ name.length ≤ 100 := by omega
      rw [decide_eq_false h0, decide_eq_false h1']
      simp
    · have hc1 : ¬ (name ≠ "" ∧ (100 < name.length ∨ name.length < 1)) := by
        rintro ⟨-, h | h⟩
        · exact h1 h
        · omega
      have hc3 : ¬ validateCommandSecurity (some "ls") = false := by
        rw [hcmd]; simp
      have hc4 : ¬ validateCronSchedule (some "@daily") = false := by
        rw [hsch]; simp
      have h1' : name.length ≤ 100 := by omega
      by_cases h2 : validatorIsAlphanumeric (stripNameChars name) = true
      · have hc2 : ¬ (name ≠ "" ∧
            validatorIsAlphanumeric (stripNameChars name) = false) := by
          rintro ⟨-, hf⟩
          rw [h2] at hf
          exact absurd hf (by decide)
        rw [if_neg hc1, if_neg hc2, if_neg hc3, if_neg hc4]
        unfold acceptsJob nameAcceptAmended
        rw [decide_eq_false h0, decide_eq_true h1', ← hstrip, h2]
        simp
      · have h2' : validatorIsAlphanumeric (stripNameChars name) = false := by
          simpa using h2
        rw [if_neg hc1, if_pos ⟨h0, h2'⟩]
        unfold acceptsJob nameAcceptAmended
        rw [decide_eq_false h0, decide_eq_true h1', ← hstrip, h2']
        simp

/-! ## The per-job compiler (`make_command`, src/crontab.js)

`cronPath`, `log_folder` and `__dirname` are configuration values; they are
passed as parameters `cp`, `lf` and `dn`.  `path.join` on these simple
segments is separator concatenation. -/

/-- Ensure the user command ends with a semicolon (the source compares the
last character with `";"`; an empty command gets one appended). -/
def terminated (c : String) : String :=
  if c.data.getLast? = some ';' then c else c ++ ";"

/-- `make_command` from src/crontab.js: wrap the command, tee stdout and
stderr into per-job capture files, then append the optional logging, hook and
mailing blocks.  The logging guard transliterates
`tab.logging && tab.logging == "true"`. -/
def make_command (cp lf dn : String) (id : String) (tab : TabData) : String :=
  let stderrF := cp ++ "/" ++ id ++ ".stderr"
  let stdoutF := cp ++ "/" ++ id ++ ".stdout"
  let log_file := lf ++ "/" ++ id ++ ".log"
  let log_file_stdout := lf ++ "/" ++ id ++ ".stdout.log"
  let s := "\x7b " ++ terminated tab.command ++ " \x7d"
  let s := "(" ++ s ++ " | tee " ++ stdoutF ++ ")"
  let s := "(" ++ s ++ " 3>&1 1>&2 2>&3 | tee " ++ stderrF ++ ") 3>&1 1>&2 2>&3"
  let s := "(" ++ s ++ ")"
  let s :=
    if truthy tab.logging && looseEqTrueStr tab.logging then
      s ++ "; if test -f " ++ stderrF ++
        "; then date >> \"" ++ log_file ++ "\"" ++
        "; cat " ++ stderrF ++ " >> \"" ++ log_file ++ "\"" ++
        "; fi" ++
        "; if test -f " ++ stdoutF ++
        "; then date >> \"" ++ log_file_stdout ++ "\"" ++
        "; cat " ++ stdoutF ++ " >> \"" ++ log_file_stdout ++ "\"" ++
        "; fi"
    else s
  let s :=
    match tab.hook with
    | some hk =>
      if hk == "" then s
      else s ++ "; if test -f " ++ stdoutF ++ "; then " ++ hk ++ " < " ++ stdoutF ++ "; fi"
    | none => s
  let s :=
    if tab.mailing.isEmpty then s
    else s ++ "; /usr/local/bin/node " ++ dn ++ "/bin/crontab-ui-mailer.js " ++
      id ++ " " ++ stdoutF ++ " " ++ stderrF
  s

/-- A concrete record whose `logging` field is the boolean `true`, as every
record built by `createCrontab` with logging enabled is. -/
def boolLoggingTab : TabData :=
  { name := "n", command := "ls", schedule := "@daily", stopped := false,
    timestamp := "", logging := .vBool true, mailing := [], hook := none,
    created := 0, lastModified := 0, version := "2.0", saved := false }

/-- The same record with `logging` the string `"true"`, the only value the
compiled guard accepts. -/
def strLoggingTab : TabData :=
  { name := "n", command := "ls", schedule := "@daily", stopped := false,
    timestamp := "", logging := .vStr "true", mailing := [], hook := none,
    created := 0, lastModified := 0, version := "2.0", saved := false }

/-- Claim C4: the logging guard `tab.logging && tab.logging == "true"` is
never satisfied by a boolean — JavaScript's loose comparison converts `true`
to the number 1 and `"true"` to `NaN` — so for every job whose `logging`
field is the boolean `true` (as `createCrontab` stores it), `make_command`
emits exactly what it emits with logging disabled; the logging block is only
appended when `logging` is the string `"true"`, as the inequality at a
concrete record shows. -/
theorem logging_block_requires_string_true :
    (∀ (cp lf dn id : String) (tab : TabData),
      make_command cp lf dn id { tab with logging := .vBool true }
        = make_command cp lf dn id { tab with logging := .vBool false }) ∧
    make_command "/tmp" "/logs" "/app" "a" strLoggingTab
      ≠ make_command "/tmp" "/logs" "/app" "a" boolLoggingTab := by
  constructor
  · intro cp lf dn id tab
    rfl
  · decide

/-! ## Store mutations (src/crontab.js) -/

/-- `create_new`: build a record with `stopped = false`; the database insert
assigns the id. -/
def create_new (name command schedule : String) (logging : Bool)
    (mailing : List (String × String)) (now : Nat) (nowIso : String) :
    Except String TabData :=
  createCrontab name command schedule (some false) logging mailing now nowIso

/-- `update`: rebuild the record from the submitted fields only
(`stopped` is passed as `null`), refresh `lastModified` and clear `saved`;
the caller replaces the stored document wholesale. -/
def update (name command schedule : String) (logging : Bool)
    (mailing : List (String × String)) (now : Nat) (nowIso : String) :
    Except String TabData :=
  match createCrontab name command schedule none logging mailing now nowIso with
  | .ok t => .ok { t with lastModified := now, saved := false }
  | .error e => .error e

/-- `db.update({_id: id}, tab)`: replace the document with the given id. -/
def dbReplace (id : String) (t : TabData) (store : List (String × TabData)) :
    List (String × TabData) :=
  store.map (fun e => if e.1 == id then (e.1, t) else e)

/-- `status`: `db.update({_id}, {$set: {stopped: stopped, saved: false}})`. -/
def status (id : String) (stopped : Bool) (store : List (String × TabData)) :
    List (String × TabData) :=
  store.map (fun e =>
    if e.1 == id then (e.1, { e.2 with stopped := stopped, saved := false }) else e)

/-- `db.update({}, {$set: {saved: true}}, {multi: true})`: the final step of a
successful publish sets `saved` on every document in the store. -/
def markAllSaved (store : List (String × TabData)) : List (String × TabData) :=
  store.map (fun e => (e.1, { e.2 with saved := true }))

/-- A record accepted by `createCrontab` carries the requested `stopped`
value (`Boolean(null)` is `false`) and `saved = false`. -/
theorem createCrontab_ok_fields (name command schedule : String)
    (sa : Option Bool) (logging : Bool) (mailing : List (String × String))
    (now : Nat) (nowIso : String) (t : TabData)
    (heq : createCrontab name command schedule sa logging mailing now nowIso
      = .ok t) :
    t.stopped = sa.getD false ∧ t.saved = false := by
  unfold createCrontab at heq
  repeat' split at heq
  any_goals exact Except.noConfusion heq
  injection heq with h
  constructor
  · rw [← h]
  · rw [← h]

/-- Replacing the document at `i` by a non-stopped, unsaved record leaves
every document at `i` non-stopped and unsaved. -/
theorem dbReplace_all_flag (t : TabData) (ht : t.stopped = false)
    (hs : t.saved = false) (store : List (String × TabData)) (i : String) :
    (dbReplace i t store).all
      (fun e => !(e.1 == i) || (!e.2.stopped && !e.2.saved)) = true := by
  rw [List.all_eq_true]
  intro e he
  rw [dbReplace] at he
  obtain ⟨x, -, rfl⟩ := List.mem_map.mp he
  by_cases h : (x.1 == i) = true
  · simp [h, ht, hs]
  · simp [h]

/-- Claim C9: a successful `update` always stores `stopped = false` (the
source passes `null` for `stopped` and `Boolean(null)` is `false`) and
`saved = false`, and the replacement overwrites the old record at that id —
so updating a stopped job re-enables it. -/
theorem update_resets_stopped_and_saved (name command schedule : String)
    (logging : Bool) (mailing : List (String × String)) (now : Nat)
    (nowIso : String) (store : List (String × TabData)) (i : String) :
    (match update name command schedule logging mailing now nowIso with
      | .ok t =>
        (dbReplace i t store).all
          (fun e => !(e.1 == i) || (!e.2.stopped && !e.2.saved))
      | .error _ => true) = true := by
  cases hc : createCrontab name command schedule none logging mailing now nowIso with
  | error e =>
    unfold update
    rw [hc]
  | ok t0 =>
    obtain ⟨ht, -⟩ :=
      createCrontab_ok_fields name command schedule none logging mailing now nowIso t0 hc
    unfold update
    rw [hc]
    exact dbReplace_all_flag { t0 with lastModified := now, saved := false }
      ht rfl store i

/-! ## The publish protocol (`set_crontab`, src/crontab.js) -/

/-- The compiled full schedule text of `set_crontab`: start from the
environment blob (followed by a newline when it is non-empty, nothing
otherwise) and append `<schedule> <compiled fragment>\n` for every
non-stopped job. -/
def scheduleText (cp lf dn : String) (env_vars : String)
    (tabs : List (String × TabData)) : String :=
  tabs.foldl
    (fun acc e =>
      if e.2.stopped then acc
      else acc ++ e.2.schedule ++ " " ++ make_command cp lf dn e.1 e.2 ++ "\n")
    (if env_vars = "" then "" else env_vars ++ "\n")

/-- The outcome of one `set_crontab` run: the sequence of callback
invocations (carrying the error, if any), which files were written, whether
the host-scheduler reload `crontab <file>` was invoked, the text that was
compiled, and the final state of the job store. -/
structure PublishOutcome where
  callbacks : List (Option String)
  envFileWritten : Bool
  scheduleFileWritten : Bool
  reloadInvoked : Bool
  compiledText : String
  finalStore : List (String × TabData)

/-- `set_crontab` from src/crontab.js, with the results of the three
side-effecting steps (environment-file write, schedule-file write, reload
exec) supplied as `Option String` errors.  The source's env-write callback
calls `callback(err)` on failure but does not `return`, so the remaining
steps run regardless of `envErr`; the schedule-write and reload callbacks do
`return callback(err)`.  On a fully successful run every document's `saved`
flag is set. -/
def set_crontab (cp lf dn : String) (store : List (String × TabData))
    (env_vars : String) (envErr schedErr reloadErr : Option String) :
    PublishOutcome :=
  let text := scheduleText cp lf dn env_vars store
  let cb1 : List (Option String) :=
    match envErr with
    | some e => [some e]
    | none => []
  match schedErr with
  | some e =>
    { callbacks := cb1 ++ [some e], envFileWritten := envErr.isNone,
      scheduleFileWritten := false, reloadInvoked := false,
      compiledText := text, finalStore := store }
  | none =>
    match reloadErr with
    | some e =>
      { callbacks := cb1 ++ [some e], envFileWritten := envErr.isNone,
        scheduleFileWritten := true, reloadInvoked := true,
        compiledText := text, finalStore := store }
    | none =>
      { callbacks := cb1 ++ [none], envFileWritten := envErr.isNone,
        scheduleFileWritten := true, reloadInvoked := true,
        compiledText := text, finalStore := markAllSaved store }

/-- A concrete stopped, unsaved job used to exercise the publish marking. -/
def stoppedTab : TabData :=
  { name := "s", command := "ls", schedule := "@daily", stopped := true,
    timestamp := "", logging := .vBool false, mailing := [], hook := none,
    created := 0, lastModified := 0, version := "2.0", saved := false }

/-- Claim C1 (counterexample): a stopped job contributes no line to the
publish, yet a fully successful `set_crontab` flips its `saved` flag from
`false` to `true` (`db.update({}, {$set: {saved: true}}, {multi: true})`
matches every document), so `saved` is not unchanged for jobs not included. -/
theorem stopped_job_saved_set_by_publish :
    stoppedTab.stopped = true ∧ stoppedTab.saved = false ∧
      ((set_crontab "/tmp" "/logs" "/app" [("j1", stoppedTab)] "" none none
          none).finalStore.map (fun e => e.2.saved)) = [true] := by
  exact ⟨rfl, rfl, rfl⟩

/-- Claim C1 (amended): `saved` is `false` on the record produced by any job
mutation — `create_new`, `update`, and for the affected job of `status` —
and after a publish in which both file writes and the reload succeed,
`saved` is `true` for every job in the store, stopped jobs included (the
marking step matches all documents, not only the published ones). -/
theorem publish_and_mutation_saved_flags (store : List (String × TabData))
    (cp lf dn env : String) (j : String) (b : Bool)
    (name command schedule : String) (lg : Bool)
    (ml : List (String × String)) (now : Nat) (nowIso : String) :
    ((set_crontab cp lf dn store env none none none).finalStore.all
        (fun e => e.2.saved)) = true ∧
    ((status j b store).all (fun e => !(e.1 == j) || !e.2.saved)) = true ∧
    ((match create_new name command schedule lg ml now nowIso with
      | .ok t => !t.saved
      | .error _ => true) = true) ∧
    ((match update name command schedule lg ml now nowIso with
      | .ok t => !t.saved
      | .error _ => true) = true) := by
  refine ⟨?_, ?_, ?_, ?_⟩
  · show (markAllSaved store).all (fun e => e.2.saved) = true
    rw [List.all_eq_true]
    intro e he
    obtain ⟨x, -, rfl⟩ := List.mem_map.mp he
    rfl
  · rw [List.all_eq_true]
    intro e he
    obtain ⟨x, -, rfl⟩ := List.mem_map.mp he
    by_cases h : (x.1 == j) = true
    · simp [h]
    · simp [h]
  · unfold create_new
    cases hc : createCrontab name command schedule (some false) lg ml now nowIso with
    | error e => rfl
    | ok t =>
      obtain ⟨-, hs⟩ :=
        createCrontab_ok_fields name command schedule (some false) lg ml now nowIso t hc
      simp [hs]
  · cases hc : createCrontab name command schedule none lg ml now nowIso with
    | error e =>
      unfold update
      rw [hc]
    | ok t =>
      unfold update
      rw [hc]
      rfl

/-- A concrete running job for exercising the publish error path. -/
def plainTab : TabData :=
  { name := "p", command := "ls", schedule := "@daily", stopped := false,
    timestamp := "", logging := .vBool false, mailing := [], hook := none,
    created := 0, lastModified := 0, version := "2.0", saved := false }

/-- Claim C2: when the environment-file write fails, the source reports the
error but is missing a `return`, so the remaining steps still run: the
schedule file is written, the host-scheduler reload is invoked, every job is
marked saved, and the callback fires a second time (first with the error,
then with success).  The second conjunct block confirms the claim's other
half: a schedule-file write failure does abort before the reload. -/
theorem env_write_error_does_not_abort_publish :
    ((set_crontab "/tmp" "/logs" "/app" [("j1", plainTab)] "X=1"
        (some "EACCES") none none).scheduleFileWritten = true ∧
      (set_crontab "/tmp" "/logs" "/app" [("j1", plainTab)] "X=1"
        (some "EACCES") none none).reloadInvoked = true ∧
      ((set_crontab "/tmp" "/logs" "/app" [("j1", plainTab)] "X=1"
        (some "EACCES") none none).finalStore.map (fun e => e.2.saved)) = [true] ∧
      (set_crontab "/tmp" "/logs" "/app" [("j1", plainTab)] "X=1"
        (some "EACCES") none none).callbacks = [some "EACCES", none]) ∧
    ((set_crontab "/tmp" "/logs" "/app" [("j1", plainTab)] "X=1"
        none (some "ENOSPC") none).reloadInvoked = false ∧
      (set_crontab "/tmp" "/logs" "/app" [("j1", plainTab)] "X=1"
        none (some "ENOSPC") none).callbacks = [some "ENOSPC"]) := by
  exact ⟨⟨rfl, rfl, rfl, rfl⟩, ⟨rfl, rfl⟩⟩

/-- One compiled schedule line: `<schedule> <compiled fragment>\n`. -/
def lineOf (cp lf dn : String) (e : String × TabData) : String :=
  e.2.schedule ++ " " ++ make_command cp lf dn e.1 e.2 ++ "\n"

/-- Claim-side definition following the specification's words: the
newline-terminated lines of the non-stopped jobs, in store order. -/
def linesJoin (cp lf dn : String) (tabs : List (String × TabData)) : String :=
  (tabs.filter (fun e => !e.2.stopped)).foldr (fun e acc => lineOf cp lf dn e ++ acc) ""

/-- Claim-side definition following the specification's words: the
environment blob verbatim followed by a newline, then the job lines. -/
def scheduleTextSpecOriginal (cp lf dn : String) (env_vars : String)
    (tabs : List (String × TabData)) : String :=
  env_vars ++ "\n" ++ linesJoin cp lf dn tabs

/-- Claim C8 (counterexample): with an empty environment blob the source
appends no leading newline (`if (env_vars)` is false for `""`), so the
compiled text differs from the claim's `blob ++ "\n" ++ lines` shape. -/
theorem empty_env_no_leading_newline :
    scheduleText "/tmp" "/logs" "/app" "" [] = "" ∧
      scheduleTextSpecOriginal "/tmp" "/logs" "/app" "" [] = "\n" ∧
      scheduleText "/tmp" "/logs" "/app" "" []
        ≠ scheduleTextSpecOriginal "/tmp" "/logs" "/app" "" [] := by
  refine ⟨rfl, rfl, by decide⟩

/-- The job-line fold appends `linesJoin` to any accumulator. -/
theorem scheduleText_foldl (cp lf dn : String) (tabs : List (String × TabData)) :
    ∀ acc : String,
      tabs.foldl
        (fun acc e =>
          if e.2.stopped then acc
          else acc ++ e.2.schedule ++ " " ++ make_command cp lf dn e.1 e.2 ++ "\n")
        acc
      = acc ++ linesJoin cp lf dn tabs := by
  induction tabs with
  | nil =>
    intro acc
    simp [linesJoin, String.append_empty]
  | cons e rest ih =>
    intro acc
    by_cases hs : e.2.stopped = true
    · simp only [List.foldl_cons, hs, if_true, ih, linesJoin, List.filter_cons,
        Bool.not_true]
      simp
    · have hs' : e.2.stopped = false := by simpa using hs
      simp only [List.foldl_cons, hs', if_false, ih, linesJoin, List.filter_cons,
        Bool.not_false, if_true, List.foldr_cons, lineOf]
      simp [String.append_assoc]

/-- Claim C8 (amended): the compiled full schedule text is the environment
blob followed by a newline when the blob is non-empty — and nothing at all
when it is empty — followed by exactly one newline-terminated
`<schedule> <fragment>` line per non-stopped job; stopped jobs contribute no
line. -/
theorem schedule_text_structure (cp lf dn env : String)
    (tabs : List (String × TabData)) :
    scheduleText cp lf dn env tabs
      = (if env = "" then "" else env ++ "\n") ++ linesJoin cp lf dn tabs := by
  unfold scheduleText
  exact scheduleText_foldl cp lf dn tabs _

/-! ## The `DatabaseManager` cache (src/unnamed/part_006)

The in-memory cache is a map from stringly keys to cached values; values are
opaque here (`Nat`).  `clearCache(pattern)` deletes every entry whose key
contains the pattern, and with no pattern clears the whole map. -/

/-- `clearCache` of `DatabaseManager`: with a pattern, delete the entries
whose key contains it; with `none`, clear everything. -/
def clearCache (pattern : Option String) (cache : List (String × Nat)) :
    List (String × Nat) :=
  match pattern with
  | some p => cache.filter (fun kv => !(listContains p.data kv.1.data))
  | none => []

/-- The cache effect of `DatabaseManager.createCrontab`:
`this.clearCache('getAllCrontabs')`. -/
def createCrontabCacheEffect (cache : List (String × Nat)) : List (String × Nat) :=
  clearCache (some "getAllCrontabs") cache

/-- The cache effect of `DatabaseManager.updateCrontab`: `this.clearCache()`. -/
def updateCrontabCacheEffect (cache : List (String × Nat)) : List (String × Nat) :=
  clearCache none cache

/-- The cache effect of `DatabaseManager.updateStatus`: `this.clearCache()`. -/
def updateStatusCacheEffect (cache : List (String × Nat)) : List (String × Nat) :=
  clearCache none cache

/-- The cache effect of `DatabaseManager.deleteCrontab`: `this.clearCache()`. -/
def deleteCrontabCacheEffect (cache : List (String × Nat)) : List (String × Nat) :=
  clearCache none cache

/-- Claim C7 (counterexample): `createCrontab` clears only the entries whose
key contains `getAllCrontabs`; a cached single-job read survives it, so not
every mutating operation leaves the cache completely empty. -/
theorem create_leaves_get_entry_cached :
    createCrontabCacheEffect [("getCrontab:a", 0)] = [("getCrontab:a", 0)] ∧
      createCrontabCacheEffect [("getCrontab:a", 0)] ≠ [] := by
  refine ⟨by decide, by decide⟩

/-- Claim C7 (amended): `updateCrontab`, `updateStatus` and `deleteCrontab`
leave the cache completely empty; `createCrontab` performs key-level
invalidation instead, removing exactly the entries whose key contains
`getAllCrontabs` (every cached list result) and keeping the rest. -/
theorem cache_invalidation_policy (cache : List (String × Nat)) :
    updateCrontabCacheEffect cache = [] ∧
    updateStatusCacheEffect cache = [] ∧
    deleteCrontabCacheEffect cache = [] ∧
    createCrontabCacheEffect cache
      = cache.filter (fun kv => !(listContains "getAllCrontabs".data kv.1.data)) ∧
    (createCrontabCacheEffect cache).all
      (fun kv => !(listContains "getAllCrontabs".data kv.1.data)) = true := by
  refine ⟨rfl, rfl, rfl, rfl, ?_⟩
  rw [List.all_eq_true]
  intro kv hkv
  simpa using (List.mem_filter.mp hkv).2

/-! ## `get_env` (src/crontab.js)

The environment file is modelled as `Option String`: `none` when the file
does not exist, `some txt` for its text content. -/

/-- JavaScript `String.prototype.replace` with a string pattern: replace the
first occurrence only. -/
def jsReplaceFirst (pat repl : List Char) : List Char → List Char
  | [] => []
  | c :: rest =>
    if listPrefixAt pat (c :: rest) then repl ++ (c :: rest).drop pat.length
    else c :: jsReplaceFirst pat repl rest

/-- `get_env` from src/crontab.js: `""` when the env file does not exist,
otherwise the file text after `.replace("\n", "\n")`. -/
def get_env (envFile : Option String) : String :=
  match envFile with
  | some txt => ⟨jsReplaceFirst "\n".data "\n".data txt.data⟩
  | none => ""

/-- A prefix followed by the rest of the list is the list. -/
theorem listPrefixAt_append_drop (pat : List Char) :
    ∀ l : List Char, listPrefixAt pat l = true → pat ++ l.drop pat.length = l := by
  induction pat with
  | nil =>
    intro l _
    rfl
  | cons p ps ih =>
    intro l h
    cases l with
    | nil => exact absurd h (by simp [listPrefixAt])
    | cons c cs =>
      unfold listPrefixAt at h
      rw [Bool.and_eq_true, beq_iff_eq] at h
      obtain ⟨rfl, h2⟩ := h
      simp only [List.cons_append, List.length_cons, List.drop_succ_cons]
      rw [ih cs h2]

/-- Replacing the first occurrence of a pattern by itself changes nothing. -/
theorem jsReplaceFirst_self (pat : List Char) :
    ∀ l : List Char, jsReplaceFirst pat pat l = l := by
  intro l
  induction l with
  | nil => rfl
  | cons c rest ih =>
    unfold jsReplaceFirst
    by_cases h : listPrefixAt pat (c :: rest) = true
    · rw [if_pos h]
      exact listPrefixAt_append_drop pat (c :: rest) h
    · rw [if_neg h, ih]

/-- Claim C10: `get_env` is total — it returns the empty string when the
environment file does not exist, and the file's text content unchanged when
it does (`.replace("\n", "\n")` replaces the first newline by itself). -/
theorem get_env_total_behavior :
    get_env none = "" ∧ ∀ txt : String, get_env (some txt) = txt := by
  constructor
  · rfl
  · intro txt
    cases txt with
    | mk l =>
      show (⟨jsReplaceFirst "\n".data "\n".data l⟩ : String) = ⟨l⟩
      rw [jsReplaceFirst_self]

end CrontabUI
